import Mathlib

/-!
Verification of the active-execution registry and error reporter of this
repository.

The registry implementation (packages/cli/src/active-executions.ts) is not
part of the provided source slice; only its test file
(packages/cli/src/__tests__/active-executions.test.ts) is.  The registry is
therefore modelled from the specification (spec.md, sections 3, 4.1, 7, 8):
each operation's definition carries a doc comment naming the clause it
follows.  The error reporter is embedded from
packages/core/src/error-reporter.ts, which is part of the source slice.

Promises are modelled as one-shot settlement cells held in tables indexed by
numeric identifiers, so that a promise can be observed after the record that
created it has been removed from the live map.  Collaborator calls
(createNewExecution, updateExistingExecution, the cancel() of a cancelable
handle, the canonical getExecutionOrFail lookup) are modelled by counters.
-/

namespace N8n

/-- Execution status domain.  Modelled from the spec: section 3 lists
`{running, waiting, finished, error, canceled, ...}` plus the `unknown`
sentinel that `getStatus` returns for an absent record. -/
inductive ExecutionStatus where
  | new
  | running
  | waiting
  | finished
  | error
  | canceled
  | unknown
deriving DecidableEq, Repr

/-- Abstract final run result (the spec's `fullRunData`); the registry is
agnostic to its internal encoding, so it is an abstract payload. -/
structure RunData where
  val : Nat
deriving DecidableEq, Repr

/-- Abstract payload resolved onto a response promise. -/
structure ResponseData where
  val : Nat
deriving DecidableEq, Repr

/-- Abstract registration payload passed to `add` (the spec's
`executionData`); the registry never inspects it. -/
structure ExecutionData where
  workflowId : String
deriving DecidableEq, Repr

/-- Error taxonomy of the registry.  Modelled from the spec: section 7
distinguishes the not-found lookup error from the cancellation error; the
cancellation error carries the execution identifier. -/
inductive RegError where
  | executionNotFound (executionId : String)
  | executionCancelled (executionId : String)
deriving DecidableEq, Repr

/-- Settlement state of a one-shot promise. -/
inductive PromiseState (α : Type) where
  | pending
  | resolved (value : α)
  | rejected (err : RegError)
deriving DecidableEq, Repr

/-- Cancelable unit-of-work handle (the spec's `workflowExecution`); its
`cancel()` requests are counted. -/
structure WorkflowExecution where
  cancelCalls : Nat
deriving DecidableEq, Repr

/-- One tracked execution.  Modelled from the spec: section 3's
ExecutionRecord.  The two promises are identifiers into the registry's
promise tables. -/
structure ExecutionRecord where
  executionId : String
  status : ExecutionStatus
  startedAt : Nat
  executionData : ExecutionData
  postExecutePromise : Nat
  responsePromise : Option Nat
  workflowExecution : Option WorkflowExecution
deriving DecidableEq, Repr

/-- The registry's full state: the live map, the promise tables, and
counters for the collaborator calls the tests observe. -/
structure RegistryState where
  executions : List (String × ExecutionRecord)
  postPromises : List (Nat × PromiseState (Option RunData))
  respPromises : List (Nat × PromiseState ResponseData)
  nextPromiseId : Nat
  lookupCalls : Nat
  createNewExecutionCalls : Nat
  updateExistingExecutionCalls : Nat
deriving DecidableEq, Repr

/-- Environment of one `add` call: the clock and the identifier the
persistence collaborator's `createNewExecution` would hand back. -/
structure AddEnv where
  now : Nat
  freshExecutionId : String
deriving DecidableEq, Repr

/-- Look a key up in an association list. -/
def lookupEntry {α β : Type} [DecidableEq α] (key : α) : List (α × β) → Option β
  | [] => none
  | (k, v) :: rest => if k = key then some v else lookupEntry key rest

/-- Replace the value at a key, or append the binding when the key is
absent. -/
def upsert {α β : Type} [DecidableEq α] (key : α) (value : β) : List (α × β) → List (α × β)
  | [] => [(key, value)]
  | (k, v) :: rest => if k = key then (key, value) :: rest else (k, v) :: upsert key value rest

/-- Drop every binding of a key. -/
def removeEntry {α β : Type} [DecidableEq α] (key : α) (l : List (α × β)) : List (α × β) :=
  l.filter (fun p => decide (p.1 ≠ key))

/-- Well-formedness of a registry state: each record is keyed by its own
identifier and keys are unique (the spec's exactly-one-record invariant,
section 3). -/
def RegistryState.WellFormed (s : RegistryState) : Prop :=
  (∀ p ∈ s.executions, p.2.executionId = p.1) ∧ (s.executions.map Prod.fst).Nodup

/-- The state right after construction.  Modelled from the spec: the live
map starts empty. -/
def RegistryState.empty : RegistryState :=
  { executions := []
    postPromises := []
    respPromises := []
    nextPromiseId := 0
    lookupCalls := 0
    createNewExecutionCalls := 0
    updateExistingExecutionCalls := 0 }

/-- A freshly registered record.  Modelled from the spec: section 4.1 add:
status running, startedAt now, empty (pending) postExecutePromise, nothing
attached. -/
def newRecord (env : AddEnv) (data : ExecutionData) (executionId : String) (promiseId : Nat) :
    ExecutionRecord :=
  { executionId := executionId
    status := ExecutionStatus.running
    startedAt := env.now
    executionData := data
    postExecutePromise := promiseId
    responsePromise := none
    workflowExecution := none }

/-- Modelled from the spec: section 4.1 `add(executionData, existingExecutionId?)`.
With no identifier, persist via `createNewExecution` (counted), obtain the
collaborator's fresh identifier, insert a new record, return the identifier.
With an identifier whose record is live, persist via `updateExistingExecution`
(counted) and merge, preserving `startedAt` and any attached `responsePromise`,
setting status running.  With an identifier but no live record, persist via
`updateExistingExecution` and create a record seeded with that identifier. -/
def RegistryState.add (s : RegistryState) (env : AddEnv) (data : ExecutionData)
    (existingExecutionId : Option String) : RegistryState × String :=
  match existingExecutionId with
  | none =>
      let executionId := env.freshExecutionId
      let promiseId := s.nextPromiseId
      ({ s with
          executions := upsert executionId (newRecord env data executionId promiseId) s.executions
          postPromises := upsert promiseId PromiseState.pending s.postPromises
          nextPromiseId := promiseId + 1
          createNewExecutionCalls := s.createNewExecutionCalls + 1 },
        executionId)
  | some executionId =>
      match lookupEntry executionId s.executions with
      | some record =>
          ({ s with
              executions :=
                upsert executionId
                  { record with status := ExecutionStatus.running, executionData := data }
                  s.executions
              updateExistingExecutionCalls := s.updateExistingExecutionCalls + 1 },
            executionId)
      | none =>
          let promiseId := s.nextPromiseId
          ({ s with
              executions := upsert executionId (newRecord env data executionId promiseId) s.executions
              postPromises := upsert promiseId PromiseState.pending s.postPromises
              nextPromiseId := promiseId + 1
              updateExistingExecutionCalls := s.updateExistingExecutionCalls + 1 },
            executionId)

/-- Modelled from the spec: section 4.1 `getExecutionOrFail`, the canonical
lookup used by the other operations internally; each call is counted so one
can state that `finalizeExecution` never goes through it.  Returns the live
record or the not-found error. -/
def RegistryState.getExecutionOrFail (s : RegistryState) (executionId : String) :
    Except RegError ExecutionRecord × RegistryState :=
  let s' := { s with lookupCalls := s.lookupCalls + 1 }
  match lookupEntry executionId s.executions with
  | some record => (Except.ok record, s')
  | none => (Except.error (RegError.executionNotFound executionId), s')

/-- Modelled from the spec: section 4.1 `attachWorkflowExecution`; requires a
live record (fails with the lookup error otherwise) and stores the cancelable
handle, overwriting any previous one. -/
def RegistryState.attachWorkflowExecution (s : RegistryState) (executionId : String)
    (workflowExecution : WorkflowExecution) : Except RegError RegistryState :=
  match s.getExecutionOrFail executionId with
  | (Except.ok record, s') =>
      Except.ok
        { s' with
            executions :=
              upsert executionId { record with workflowExecution := some workflowExecution }
                s'.executions }
  | (Except.error e, _) => Except.error e

/-- Modelled from the spec: section 4.1 `attachResponsePromise`; requires a
live record (fails with the lookup error otherwise) and stores the caller's
deferred promise, here identified by `promiseId`; the promise cell is
registered pending when not already known. -/
def RegistryState.attachResponsePromise (s : RegistryState) (executionId : String)
    (promiseId : Nat) : Except RegError RegistryState :=
  match s.getExecutionOrFail executionId with
  | (Except.ok record, s') =>
      Except.ok
        { s' with
            executions :=
              upsert executionId { record with responsePromise := some promiseId } s'.executions
            respPromises :=
              match lookupEntry promiseId s'.respPromises with
              | some _ => s'.respPromises
              | none => upsert promiseId PromiseState.pending s'.respPromises }
  | (Except.error e, _) => Except.error e

/-- Modelled from the spec: section 4.1 `resolveResponsePromise`; requires a
live record with an attached response promise and resolves it with the given
payload (the spec leaves the nothing-attached behaviour open; a no-op is
chosen here). -/
def RegistryState.resolveResponsePromise (s : RegistryState) (executionId : String)
    (responseData : ResponseData) : Except RegError RegistryState :=
  match s.getExecutionOrFail executionId with
  | (Except.ok record, s') =>
      match record.responsePromise with
      | some promiseId =>
          Except.ok
            { s' with
                respPromises :=
                  upsert promiseId (PromiseState.resolved responseData) s'.respPromises }
      | none => Except.ok s'
  | (Except.error e, _) => Except.error e

/-- Modelled from the spec: section 4.1 `setStatus`; requires a live record. -/
def RegistryState.setStatus (s : RegistryState) (executionId : String)
    (status : ExecutionStatus) : Except RegError RegistryState :=
  match s.getExecutionOrFail executionId with
  | (Except.ok record, s') =>
      Except.ok
        { s' with executions := upsert executionId { record with status := status } s'.executions }
  | (Except.error e, _) => Except.error e

/-- Modelled from the spec: section 4.1 `getStatus`; returns the `unknown`
sentinel rather than failing when the record is absent. -/
def RegistryState.getStatus (s : RegistryState) (executionId : String) : ExecutionStatus :=
  match lookupEntry executionId s.executions with
  | some record => record.status
  | none => ExecutionStatus.unknown

/-- Modelled from the spec: section 4.1 `getPostExecutePromise`; requires a
live record and otherwise fails with the not-found error delivered as an
immediately rejected promise, which the embedding renders as the error arm of
`Except`.  On success it hands out the record's completion promise. -/
def RegistryState.getPostExecutePromise (s : RegistryState) (executionId : String) :
    Except RegError Nat × RegistryState :=
  match s.getExecutionOrFail executionId with
  | (Except.ok record, s') => (Except.ok record.postExecutePromise, s')
  | (Except.error e, s') => (Except.error e, s')

/-- Modelled from the spec: section 4.1 `finalizeExecution`.  Unknown
identifier: a silent no-op that does not go through the (counted) lookup
path.  Record in status waiting: a no-op, the record stays visible and its
promise is untouched.  Otherwise the post-execute promise is resolved with
the given data (none modelling the omitted argument) and the record is
removed from the live map in the same step. -/
def RegistryState.finalizeExecution (s : RegistryState) (executionId : String)
    (fullRunData : Option RunData) : RegistryState :=
  match lookupEntry executionId s.executions with
  | none => s
  | some record =>
      if record.status = ExecutionStatus.waiting then s
      else
        { s with
            executions := removeEntry executionId s.executions
            postPromises :=
              upsert record.postExecutePromise (PromiseState.resolved fullRunData) s.postPromises }

/-- The distinct cancellation error raised by `stopExecution`; it carries the
execution identifier (spec section 7). -/
def cancellationError (executionId : String) : RegError :=
  RegError.executionCancelled executionId

/-- Modelled from the spec: sections 4.1, 7 and 8 `stopExecution`.  Unknown
identifier: no-op.  Otherwise the attached response promise, when present, is
rejected with the cancellation error.  When the status is not waiting, the
attached cancelable handle, when present, receives one `cancel()` call and
the post-execute promise is rejected with the cancellation error; when the
status is waiting the handle is never invoked.  The record itself is not
removed. -/
def RegistryState.stopExecution (s : RegistryState) (executionId : String) : RegistryState :=
  match lookupEntry executionId s.executions with
  | none => s
  | some record =>
      let err := cancellationError executionId
      let respPromises :=
        match record.responsePromise with
        | some promiseId => upsert promiseId (PromiseState.rejected err) s.respPromises
        | none => s.respPromises
      if record.status = ExecutionStatus.waiting then
        { s with respPromises := respPromises }
      else
        let workflowExecution :=
          match record.workflowExecution with
          | some h => some { h with cancelCalls := h.cancelCalls + 1 }
          | none => none
        { s with
            respPromises := respPromises
            postPromises :=
              upsert record.postExecutePromise (PromiseState.rejected err) s.postPromises
            executions :=
              upsert executionId { record with workflowExecution := workflowExecution }
                s.executions }

/-- Modelled from the spec: section 4.1 `getActiveExecutions`, a snapshot of
every record currently in the map. -/
def RegistryState.getActiveExecutions (s : RegistryState) : List ExecutionRecord :=
  s.executions.map (fun p => p.2)

/-- A JavaScript value as the error reporter's `error` receives it: an
ExecutionCancelledError instance, some other Error (with class name and
message), a string, or any non-error value.  The ExecutionCancelledError
class itself lives in the n8n-workflow package outside the source slice and
is modelled from the spec as the distinct cancellation error kind. -/
inductive JsVal where
  | errExecutionCancelled (executionId : String)
  | errOther (className message : String)
  | strVal (s : String)
  | otherVal
deriving DecidableEq, Repr

/-- The `e instanceof ExecutionCancelledError` test of error-reporter.ts. -/
def JsVal.isExecutionCancelledError : JsVal → Bool
  | JsVal.errExecutionCancelled _ => true
  | _ => false

/-- The error reporter's observable activity: every value handed to the
report sink (defaultReport or the monitoring client), newest first. -/
structure ErrorReporter where
  reported : List JsVal
deriving DecidableEq, Repr

/-- ErrorReporter.wrap from error-reporter.ts: an Error is returned as is, a
string is wrapped into an ApplicationError, anything else yields nothing. -/
def ErrorReporter.wrap : JsVal → Option JsVal
  | JsVal.errExecutionCancelled executionId => some (JsVal.errExecutionCancelled executionId)
  | JsVal.errOther className message => some (JsVal.errOther className message)
  | JsVal.strVal s => some (JsVal.errOther "ApplicationError" s)
  | JsVal.otherVal => none

/-- ErrorReporter.error from error-reporter.ts: returns at once when the
value is an ExecutionCancelledError; otherwise wraps it and, when wrapping
produced an error, hands it to the report sink. -/
def ErrorReporter.error (r : ErrorReporter) (e : JsVal) : ErrorReporter :=
  if e.isExecutionCancelledError then r
  else
    match ErrorReporter.wrap e with
    | some toReport => { r with reported := toReport :: r.reported }
    | none => r

instance (s : RegistryState) : Decidable s.WellFormed := by
  unfold RegistryState.WellFormed
  infer_instance

theorem lookupEntry_upsert_self {α β : Type} [DecidableEq α] (k : α) (v : β)
    (l : List (α × β)) : lookupEntry k (upsert k v l) = some v := by
  induction l with
  | nil => simp [upsert, lookupEntry]
  | cons p rest ih =>
    obtain ⟨a, b⟩ := p
    by_cases h : a = k
    · simp [upsert, h, lookupEntry]
    · simp [upsert, h, lookupEntry, ih]

theorem lookupEntry_upsert_ne {α β : Type} [DecidableEq α] (k k' : α) (v : β)
    (l : List (α × β)) (h : k' ≠ k) :
    lookupEntry k' (upsert k v l) = lookupEntry k' l := by
  induction l with
  | nil => simp [upsert, lookupEntry, if_neg (Ne.symm h)]
  | cons p rest ih =>
    obtain ⟨a, b⟩ := p
    by_cases ha : a = k
    · subst ha
      simp [upsert, lookupEntry, if_neg (Ne.symm h)]
    · simp only [upsert, if_neg ha, lookupEntry]
      by_cases ha' : a = k'
      · simp [ha']
      · simp [ha', ih]

theorem upsert_of_lookupEntry_none {α β : Type} [DecidableEq α] (k : α) (v : β)
    (l : List (α × β)) (h : lookupEntry k l = none) :
    upsert k v l = l ++ [(k, v)] := by
  induction l with
  | nil => rfl
  | cons p rest ih =>
    obtain ⟨a, b⟩ := p
    by_cases ha : a = k
    · simp [lookupEntry, ha] at h
    · simp only [lookupEntry, if_neg ha] at h
      simp [upsert, ha, ih h]

theorem lookupEntry_removeEntry_self {α β : Type} [DecidableEq α] (k : α)
    (l : List (α × β)) : lookupEntry k (removeEntry k l) = none := by
  induction l with
  | nil => rfl
  | cons p rest ih =>
    obtain ⟨a, b⟩ := p
    by_cases ha : a = k
    · simp [removeEntry, ha] at ih ⊢
      exact ih
    · simp [removeEntry, ha, lookupEntry] at ih ⊢
      exact ih

theorem removeEntry_of_lookupEntry_none {α β : Type} [DecidableEq α] (k : α)
    (l : List (α × β)) (h : lookupEntry k l = none) : removeEntry k l = l := by
  induction l with
  | nil => rfl
  | cons p rest ih =>
    obtain ⟨a, b⟩ := p
    by_cases ha : a = k
    · simp [lookupEntry, ha] at h
    · simp only [lookupEntry, if_neg ha] at h
      simp [removeEntry, ha] at ih ⊢
      exact ih h

theorem mem_removeEntry {α β : Type} [DecidableEq α] (k : α) (l : List (α × β))
    (p : α × β) (h : p ∈ removeEntry k l) : p ∈ l ∧ p.1 ≠ k := by
  have := List.mem_filter.mp h
  refine ⟨this.1, ?_⟩
  simpa using this.2

theorem length_removeEntry_add_one {α β : Type} [DecidableEq α] (k : α)
    (l : List (α × β)) (hnd : (l.map Prod.fst).Nodup)
    (h : (lookupEntry k l).isSome = true) :
    (removeEntry k l).length + 1 = l.length := by
  induction l with
  | nil => simp [lookupEntry] at h
  | cons p rest ih =>
    obtain ⟨a, b⟩ := p
    simp only [List.map_cons, List.nodup_cons] at hnd
    by_cases ha : a = k
    · subst ha
      have hnone : lookupEntry a rest = none := by
        clear ih h
        induction rest with
        | nil => rfl
        | cons q t iht =>
          obtain ⟨c, d⟩ := q
          simp only [List.map_cons, List.mem_cons, List.nodup_cons] at hnd
          by_cases hc : c = a
          · exact absurd hc.symm (fun hh => hnd.1 (Or.inl hh))
          · simp only [lookupEntry, if_neg hc]
            exact iht ⟨fun hm => hnd.1 (Or.inr hm), hnd.2.2⟩
      have hhead : removeEntry a ((a, b) :: rest) = removeEntry a rest := by
        simp [removeEntry, List.filter_cons]
      rw [hhead, removeEntry_of_lookupEntry_none a rest hnone]
      simp
    · simp only [lookupEntry, if_neg ha] at h
      simp [removeEntry, ha] at ih ⊢
      exact ih hnd.2 h

/-- A sample add environment: the clock at 5, the persistence collaborator
handing back identifier 15 (the test file's FAKE_EXECUTION_ID). -/
def envA : AddEnv :=
  { now := 5, freshExecutionId := "15" }

/-- A sample registration payload. -/
def dataA : ExecutionData :=
  { workflowId := "123" }

/-- The record produced by a fresh add under envA. -/
def recordA : ExecutionRecord :=
  { executionId := "15"
    status := ExecutionStatus.running
    startedAt := 5
    executionData := dataA
    postExecutePromise := 0
    responsePromise := none
    workflowExecution := none }

/-- A registry holding the single fresh record recordA. -/
def stateA : RegistryState :=
  { executions := [("15", recordA)]
    postPromises := [(0, PromiseState.pending)]
    respPromises := []
    nextPromiseId := 1
    lookupCalls := 0
    createNewExecutionCalls := 1
    updateExistingExecutionCalls := 0 }

/-- recordA with a cancelable handle and a response promise attached. -/
def recordB : ExecutionRecord :=
  { recordA with responsePromise := some 7, workflowExecution := some ⟨0⟩ }

/-- A registry holding recordB, its response promise cell pending. -/
def stateB : RegistryState :=
  { stateA with
      executions := [("15", recordB)]
      respPromises := [(7, PromiseState.pending)] }

/-- recordB parked in status waiting. -/
def recordC : ExecutionRecord :=
  { recordB with status := ExecutionStatus.waiting }

/-- A registry holding the waiting record recordC. -/
def stateC : RegistryState :=
  { stateB with executions := [("15", recordC)] }

/-- C10: Immediately after construction of the registry, before any add
call, getActiveExecutions returns an empty list (length zero): the live map
starts empty. -/
theorem initial_active_executions_empty :
    RegistryState.empty.getActiveExecutions = [] ∧
    RegistryState.empty.getActiveExecutions.length = 0 :=
  ⟨rfl, rfl⟩

/-- C1: add with no existing identifier invokes createNewExecution exactly
once and updateExistingExecution zero times, returns the identifier produced
by the persistence collaborator, and the number of records returned by
getActiveExecutions increases by exactly one. -/
theorem add_fresh_spec (s : RegistryState) (env : AddEnv) (data : ExecutionData)
    (hfresh : lookupEntry env.freshExecutionId s.executions = none) :
    (s.add env data none).2 = env.freshExecutionId ∧
    (s.add env data none).1.createNewExecutionCalls = s.createNewExecutionCalls + 1 ∧
    (s.add env data none).1.updateExistingExecutionCalls = s.updateExistingExecutionCalls ∧
    (s.add env data none).1.getActiveExecutions.length = s.getActiveExecutions.length + 1 := by
  refine ⟨rfl, rfl, rfl, ?_⟩
  simp [RegistryState.add, RegistryState.getActiveExecutions,
    upsert_of_lookupEntry_none _ _ _ hfresh]

/-- C1 witness: a fresh add on the empty registry. -/
theorem add_fresh_spec_witness :
    lookupEntry envA.freshExecutionId RegistryState.empty.executions = none ∧
    ((RegistryState.empty.add envA dataA none).2 = envA.freshExecutionId ∧
      (RegistryState.empty.add envA dataA none).1.createNewExecutionCalls =
        RegistryState.empty.createNewExecutionCalls + 1 ∧
      (RegistryState.empty.add envA dataA none).1.updateExistingExecutionCalls =
        RegistryState.empty.updateExistingExecutionCalls ∧
      (RegistryState.empty.add envA dataA none).1.getActiveExecutions.length =
        RegistryState.empty.getActiveExecutions.length + 1) :=
  ⟨by decide, add_fresh_spec RegistryState.empty envA dataA (by decide)⟩

/-- C2: add with the identifier of a live record invokes
updateExistingExecution exactly once and createNewExecution zero times,
returns the same identifier, and leaves the prior record's startedAt and any
attached responsePromise unchanged on the resulting record. -/
theorem add_resume_spec (s : RegistryState) (env : AddEnv) (data : ExecutionData)
    (executionId : String) (record : ExecutionRecord)
    (hrec : lookupEntry executionId s.executions = some record) :
    (s.add env data (some executionId)).2 = executionId ∧
    (s.add env data (some executionId)).1.updateExistingExecutionCalls =
      s.updateExistingExecutionCalls + 1 ∧
    (s.add env data (some executionId)).1.createNewExecutionCalls = s.createNewExecutionCalls ∧
    (lookupEntry executionId (s.add env data (some executionId)).1.executions).map
      ExecutionRecord.startedAt = some record.startedAt ∧
    (lookupEntry executionId (s.add env data (some executionId)).1.executions).map
      ExecutionRecord.responsePromise = some record.responsePromise := by
  simp [RegistryState.add, hrec, lookupEntry_upsert_self]

/-- C2 witness: resuming the waiting record recordC (which carries an
attached response promise) with its own identifier. -/
theorem add_resume_spec_witness :
    lookupEntry "15" stateC.executions = some recordC ∧
    ((stateC.add envA dataA (some "15")).2 = "15" ∧
      (stateC.add envA dataA (some "15")).1.updateExistingExecutionCalls =
        stateC.updateExistingExecutionCalls + 1 ∧
      (stateC.add envA dataA (some "15")).1.createNewExecutionCalls =
        stateC.createNewExecutionCalls ∧
      (lookupEntry "15" (stateC.add envA dataA (some "15")).1.executions).map
        ExecutionRecord.startedAt = some recordC.startedAt ∧
      (lookupEntry "15" (stateC.add envA dataA (some "15")).1.executions).map
        ExecutionRecord.responsePromise = some recordC.responsePromise) :=
  ⟨by decide, add_resume_spec stateC envA dataA "15" recordC (by decide)⟩

/-- C3: for an identifier with no live record, getExecutionOrFail,
attachWorkflowExecution and attachResponsePromise fail with the not-found
error, and getPostExecutePromise fails with the not-found error delivered as
an immediately rejected promise (the error arm of the returned Except). -/
theorem missing_record_not_found (s : RegistryState) (executionId : String)
    (handle : WorkflowExecution) (promiseId : Nat)
    (h : lookupEntry executionId s.executions = none) :
    (s.getExecutionOrFail executionId).1 =
      Except.error (RegError.executionNotFound executionId) ∧
    s.attachWorkflowExecution executionId handle =
      Except.error (RegError.executionNotFound executionId) ∧
    s.attachResponsePromise executionId promiseId =
      Except.error (RegError.executionNotFound executionId) ∧
    (s.getPostExecutePromise executionId).1 =
      Except.error (RegError.executionNotFound executionId) := by
  simp [RegistryState.getExecutionOrFail, RegistryState.attachWorkflowExecution,
    RegistryState.attachResponsePromise, RegistryState.getPostExecutePromise, h]

/-- C3 witness: identifier 15 on the empty registry. -/
theorem missing_record_not_found_witness :
    lookupEntry "15" RegistryState.empty.executions = none ∧
    ((RegistryState.empty.getExecutionOrFail "15").1 =
        Except.error (RegError.executionNotFound "15") ∧
      RegistryState.empty.attachWorkflowExecution "15" ⟨0⟩ =
        Except.error (RegError.executionNotFound "15") ∧
      RegistryState.empty.attachResponsePromise "15" 7 =
        Except.error (RegError.executionNotFound "15") ∧
      (RegistryState.empty.getPostExecutePromise "15").1 =
        Except.error (RegError.executionNotFound "15")) :=
  ⟨by decide, missing_record_not_found RegistryState.empty "15" ⟨0⟩ 7 (by decide)⟩

/-- C4: finalizeExecution on a live record in status waiting leaves the map
unchanged: the active-execution count is unchanged, the status stays
waiting, the record stays in the map, and its post-execute promise cell is
not settled. -/
theorem finalize_waiting_noop (s : RegistryState) (executionId : String)
    (record : ExecutionRecord) (fullRunData : Option RunData)
    (hrec : lookupEntry executionId s.executions = some record)
    (hw : record.status = ExecutionStatus.waiting) :
    (s.finalizeExecution executionId fullRunData).getActiveExecutions.length =
      s.getActiveExecutions.length ∧
    (s.finalizeExecution executionId fullRunData).getStatus executionId =
      ExecutionStatus.waiting ∧
    lookupEntry executionId (s.finalizeExecution executionId fullRunData).executions =
      some record ∧
    lookupEntry record.postExecutePromise
        (s.finalizeExecution executionId fullRunData).postPromises =
      lookupEntry record.postExecutePromise s.postPromises := by
  have hfin : s.finalizeExecution executionId fullRunData = s := by
    simp [RegistryState.finalizeExecution, hrec, hw]
  rw [hfin]
  exact ⟨rfl, by simp [RegistryState.getStatus, hrec, hw], hrec, rfl⟩

/-- C4 witness: finalizing the waiting record recordC. -/
theorem finalize_waiting_noop_witness :
    lookupEntry "15" stateC.executions = some recordC ∧
    recordC.status = ExecutionStatus.waiting ∧
    ((stateC.finalizeExecution "15" none).getActiveExecutions.length =
        stateC.getActiveExecutions.length ∧
      (stateC.finalizeExecution "15" none).getStatus "15" = ExecutionStatus.waiting ∧
      lookupEntry "15" (stateC.finalizeExecution "15" none).executions = some recordC ∧
      lookupEntry recordC.postExecutePromise (stateC.finalizeExecution "15" none).postPromises =
        lookupEntry recordC.postExecutePromise stateC.postPromises) :=
  ⟨by decide, by decide, finalize_waiting_noop stateC "15" recordC none (by decide) (by decide)⟩

/-- C5: finalizeExecution on a live record whose status is not waiting
resolves its post-execute promise with the given data (none for the omitted
argument) and removes the record, so the snapshot no longer contains any
record with that identifier and the active count drops by exactly one. -/
theorem finalize_removes_and_resolves (s : RegistryState) (executionId : String)
    (record : ExecutionRecord) (fullRunData : Option RunData)
    (hWF : s.WellFormed)
    (hrec : lookupEntry executionId s.executions = some record)
    (hst : record.status ≠ ExecutionStatus.waiting) :
    lookupEntry record.postExecutePromise
        (s.finalizeExecution executionId fullRunData).postPromises =
      some (PromiseState.resolved fullRunData) ∧
    lookupEntry executionId (s.finalizeExecution executionId fullRunData).executions = none ∧
    (∀ r ∈ (s.finalizeExecution executionId fullRunData).getActiveExecutions,
      r.executionId ≠ executionId) ∧
    (s.finalizeExecution executionId fullRunData).getActiveExecutions.length + 1 =
      s.getActiveExecutions.length := by
  have hfin : s.finalizeExecution executionId fullRunData =
      { s with
          executions := removeEntry executionId s.executions
          postPromises :=
            upsert record.postExecutePromise (PromiseState.resolved fullRunData)
              s.postPromises } := by
    simp [RegistryState.finalizeExecution, hrec, hst]
  rw [hfin]
  refine ⟨lookupEntry_upsert_self _ _ _, lookupEntry_removeEntry_self _ _, ?_, ?_⟩
  · intro r hr
    obtain ⟨p, hp, hpr⟩ := List.mem_map.mp hr
    obtain ⟨hpl, hpk⟩ := mem_removeEntry executionId s.executions p hp
    have := hWF.1 p hpl
    rw [← hpr, this]
    exact hpk
  · have := length_removeEntry_add_one executionId s.executions hWF.2 (by rw [hrec]; rfl)
    simpa [RegistryState.getActiveExecutions] using this

/-- C5 witness: finalizing the running record recordA with a concrete run
result. -/
theorem finalize_removes_and_resolves_witness :
    stateA.WellFormed ∧
    lookupEntry "15" stateA.executions = some recordA ∧
    recordA.status ≠ ExecutionStatus.waiting ∧
    (lookupEntry recordA.postExecutePromise
        (stateA.finalizeExecution "15" (some ⟨3⟩)).postPromises =
      some (PromiseState.resolved (some ⟨3⟩)) ∧
      lookupEntry "15" (stateA.finalizeExecution "15" (some ⟨3⟩)).executions = none ∧
      (∀ r ∈ (stateA.finalizeExecution "15" (some ⟨3⟩)).getActiveExecutions,
        r.executionId ≠ "15") ∧
      (stateA.finalizeExecution "15" (some ⟨3⟩)).getActiveExecutions.length + 1 =
        stateA.getActiveExecutions.length) :=
  ⟨by decide, by decide, by decide,
    finalize_removes_and_resolves stateA "15" recordA (some ⟨3⟩) (by decide) (by decide)
      (by decide)⟩

/-- C6: finalizeExecution on an identifier with no live record is a pure
no-op: the state (in particular the live map) is unchanged, nothing is
thrown, and the counted getExecutionOrFail lookup path is never entered. -/
theorem finalize_unknown_noop (s : RegistryState) (executionId : String)
    (fullRunData : Option RunData)
    (h : lookupEntry executionId s.executions = none) :
    s.finalizeExecution executionId fullRunData = s ∧
    (s.finalizeExecution executionId fullRunData).lookupCalls = s.lookupCalls := by
  have hfin : s.finalizeExecution executionId fullRunData = s := by
    simp [RegistryState.finalizeExecution, h]
  exact ⟨hfin, by rw [hfin]⟩

/-- C6 witness: finalizing an inactive identifier on the registry holding
only recordA. -/
theorem finalize_unknown_noop_witness :
    lookupEntry "inactive-execution-id" stateA.executions = none ∧
    (stateA.finalizeExecution "inactive-execution-id" (some ⟨3⟩) = stateA ∧
      (stateA.finalizeExecution "inactive-execution-id" (some ⟨3⟩)).lookupCalls =
        stateA.lookupCalls) :=
  ⟨by decide, finalize_unknown_noop stateA "inactive-execution-id" (some ⟨3⟩) (by decide)⟩

/-- C7: stopExecution on a live, non-waiting record with an attached
cancelable handle and response promise rejects the response promise with the
cancellation error, invokes cancel() on the handle exactly once, rejects the
post-execute promise with the cancellation error, and does not remove the
record from the map. -/
theorem stop_running_spec (s : RegistryState) (executionId : String)
    (record : ExecutionRecord) (handle : WorkflowExecution) (promiseId : Nat)
    (hrec : lookupEntry executionId s.executions = some record)
    (hst : record.status ≠ ExecutionStatus.waiting)
    (hwe : record.workflowExecution = some handle)
    (hrp : record.responsePromise = some promiseId) :
    lookupEntry promiseId (s.stopExecution executionId).respPromises =
      some (PromiseState.rejected (cancellationError executionId)) ∧
    (lookupEntry executionId (s.stopExecution executionId).executions).bind
        ExecutionRecord.workflowExecution =
      some { handle with cancelCalls := handle.cancelCalls + 1 } ∧
    lookupEntry record.postExecutePromise (s.stopExecution executionId).postPromises =
      some (PromiseState.rejected (cancellationError executionId)) ∧
    (lookupEntry executionId (s.stopExecution executionId).executions).isSome = true := by
  simp [RegistryState.stopExecution, hrec, hst, hwe, hrp, lookupEntry_upsert_self]

/-- C7 witness: stopping the running record recordB. -/
theorem stop_running_spec_witness :
    lookupEntry "15" stateB.executions = some recordB ∧
    recordB.status ≠ ExecutionStatus.waiting ∧
    recordB.workflowExecution = some ⟨0⟩ ∧
    recordB.responsePromise = some 7 ∧
    (lookupEntry 7 (stateB.stopExecution "15").respPromises =
        some (PromiseState.rejected (cancellationError "15")) ∧
      (lookupEntry "15" (stateB.stopExecution "15").executions).bind
          ExecutionRecord.workflowExecution = some ⟨0 + 1⟩ ∧
      lookupEntry recordB.postExecutePromise (stateB.stopExecution "15").postPromises =
        some (PromiseState.rejected (cancellationError "15")) ∧
      (lookupEntry "15" (stateB.stopExecution "15").executions).isSome = true) :=
  ⟨by decide, by decide, by decide, by decide,
    stop_running_spec stateB "15" recordB ⟨0⟩ 7 (by decide) (by decide) (by decide) (by decide)⟩

/-- C8: stopExecution on a live record in status waiting rejects the
attached response promise with the cancellation error and leaves the live
map untouched, so no attached handle ever receives a cancel() call. -/
theorem stop_waiting_spec (s : RegistryState) (executionId : String)
    (record : ExecutionRecord) (promiseId : Nat)
    (hrec : lookupEntry executionId s.executions = some record)
    (hst : record.status = ExecutionStatus.waiting)
    (hrp : record.responsePromise = some promiseId) :
    lookupEntry promiseId (s.stopExecution executionId).respPromises =
      some (PromiseState.rejected (cancellationError executionId)) ∧
    (s.stopExecution executionId).executions = s.executions := by
  simp [RegistryState.stopExecution, hrec, hst, hrp, lookupEntry_upsert_self]

/-- C8 witness: stopping the waiting record recordC, whose handle keeps its
cancel count. -/
theorem stop_waiting_spec_witness :
    lookupEntry "15" stateC.executions = some recordC ∧
    recordC.status = ExecutionStatus.waiting ∧
    recordC.responsePromise = some 7 ∧
    (lookupEntry 7 (stateC.stopExecution "15").respPromises =
        some (PromiseState.rejected (cancellationError "15")) ∧
      (stateC.stopExecution "15").executions = stateC.executions) :=
  ⟨by decide, by decide, by decide,
    stop_waiting_spec stateC "15" recordC 7 (by decide) (by decide) (by decide)⟩

/-- C9: the cancellation error is a distinct, identifiable error kind
(executionCancelled, carrying the identifier, never equal to the not-found
kind), and cancellations are never reported as crashes: ErrorReporter.error
on any ExecutionCancelledError value returns the reporter unchanged, without
invoking the report sink. -/
theorem cancellation_not_reported (r : ErrorReporter) (e : JsVal)
    (h : e.isExecutionCancelledError = true) :
    ErrorReporter.error r e = r ∧
    (∀ executionId otherId : String,
      cancellationError executionId = RegError.executionCancelled executionId ∧
      cancellationError executionId ≠ RegError.executionNotFound otherId) := by
  refine ⟨by simp [ErrorReporter.error, h], ?_⟩
  intro executionId otherId
  exact ⟨rfl, by simp [cancellationError]⟩

/-- C9 witness: an ExecutionCancelledError for execution 15 handed to a
fresh reporter. -/
theorem cancellation_not_reported_witness :
    JsVal.isExecutionCancelledError (JsVal.errExecutionCancelled "15") = true ∧
    (ErrorReporter.error ⟨[]⟩ (JsVal.errExecutionCancelled "15") = ⟨[]⟩ ∧
      (∀ executionId otherId : String,
        cancellationError executionId = RegError.executionCancelled executionId ∧
        cancellationError executionId ≠ RegError.executionNotFound otherId)) :=
  ⟨by decide, cancellation_not_reported ⟨[]⟩ (JsVal.errExecutionCancelled "15") (by decide)⟩

end N8n
